import Mathlib

/-!
Shallow embedding of eggnog2gbk/fa_to_gbk.py (function faa_to_gbk and its
helper contig_info), the record-assembly core that turns a contig-sequence
mapping, a protein-sequence mapping, an annotation table and GO
namespace/alias tables into a list of GenBank SeqRecord values.

Python dictionaries keyed by strings are modelled as association lists
(List (String × _)) with List.lookup; a raised exception (KeyError on a
missing dictionary key, NameError on the undefined name f at the numeric
contig-id branch) is modelled as Except.error, which aborts the whole
computation exactly as an uncaught Python exception aborts the run.
-/

/-- PyError models the uncaught Python exceptions the assembly core can
raise: KeyError on a failed dictionary lookup and NameError for the call to
the undefined name f in the numeric-contig-id branch (line 207). -/
inductive PyError where
  | keyError (k : String)
  | nameError
deriving DecidableEq, Repr

/-- QualValue models a Biopython qualifier value: either a single string
(translation, locus_tag, scaffold, ...) or a list of strings
(go_component, go_function, go_process, EC_number). -/
inductive QualValue where
  | str (s : String)
  | list (l : List String)
deriving DecidableEq, Repr

/-- FeatureLocation models Bio.SeqFeature.FeatureLocation: a start and end
coordinate and an optional strand (Biopython uses None when the strand
argument is omitted, and 0 for strand-unknown). -/
structure FeatureLocation where
  start : Nat
  stop : Nat
  strand : Option Int
deriving DecidableEq, Repr

/-- SeqFeature models Bio.SeqFeature.SeqFeature: a location, a feature type
string and an insertion-ordered qualifier dictionary. -/
structure SeqFeature where
  loc : FeatureLocation
  type : String
  qualifiers : List (String × QualValue)
deriving DecidableEq, Repr

/-- SeqRecord models Bio.SeqRecord.SeqRecord as used by contig_info: id,
name, description, the nucleotide sequence, the record-level annotation
dictionary and the feature list. -/
structure SeqRecord where
  id : String
  name : String
  description : String
  seq : String
  annots : List (String × String)
  features : List SeqFeature
deriving DecidableEq, Repr

/-- AnnotRecord models one row of the eggnog annotation table as exposed to
faa_to_gbk: the raw GOs string and the raw EC string. -/
structure AnnotRecord where
  GOs : String
  EC : String
deriving DecidableEq, Repr

/-- Table is a string-keyed, string-valued Python dictionary modelled as an
association list. -/
abbrev Table := List (String × String)

/-- splitList models the Python call re.split(';|,', s) on the character
list of s: split at every semicolon or comma, keeping empty pieces, so the
empty input yields the one-element list holding the empty piece. -/
def splitList (p : Char → Bool) : List Char → List (List Char)
  | [] => [[]]
  | c :: cs =>
    if p c then [] :: splitList p cs
    else
      match splitList p cs with
      | [] => [[c]]
      | l :: ls => (c :: l) :: ls

/-- splitAnnot is re.split applied to a raw GOs or EC string, as at lines
237 and 262 of fa_to_gbk.py. -/
def splitAnnot (s : String) : List String :=
  (splitList (fun c => c == ';' || c == ',') s.toList).map (fun l => String.mk l)

/-- replaceList models Python str.replace on character lists: replace each
left-to-right non-overlapping occurrence of pat by rep (pat is nonempty in
the one use site, the literal "ec:"). -/
def replaceList (pat rep : List Char) : List Char → List Char
  | [] => []
  | c :: cs =>
    if pat ≠ [] ∧ pat.isPrefixOf (c :: cs) then
      rep ++ replaceList pat rep (cs.drop (pat.length - 1))
    else
      c :: replaceList pat rep cs
termination_by l => l.length
decreasing_by
  · simp only [List.length_drop, List.length_cons]
    omega
  · simp [Nat.lt_succ_self]

/-- pyReplace is Python str.replace lifted back to String; the source uses
it as ec.replace with the pattern "ec:" and the empty replacement. -/
def pyReplace (s pat rep : String) : String :=
  String.mk (replaceList pat.toList rep.toList s.toList)

/-- pyIsNumeric models str.isnumeric restricted to ASCII identifiers: true
iff the string is nonempty and every character is a digit. -/
def pyIsNumeric (s : String) : Bool :=
  !s.toList.isEmpty && s.toList.all (fun c => c.isDigit)

/-- lookupE models a Python subscript d[k]: the value when the key is
present, a KeyError aborting the run otherwise. -/
def lookupE (t : List (String × α)) (k : String) : Except PyError α :=
  match List.lookup k t with
  | some v => Except.ok v
  | none => Except.error (PyError.keyError k)

/-- resolvedNamespace models lines 246-255 of fa_to_gbk.py for one GO id:
when the id is not a key of go_namespaces take its replacement from
go_alternatives (KeyError when absent there too), otherwise keep the id;
then subscript go_namespaces with the resolved id (KeyError when the
replacement is itself unknown). -/
def resolvedNamespace (ns alt : Table) (go : String) : Except PyError String := do
  let goTest ←
    match List.lookup go ns with
    | some _ => Except.ok go
    | none => lookupE alt go
  lookupE ns goTest

/-- classifyGOs models the loop at lines 243-255: for each GO id in input
order, resolve its namespace and append the ORIGINAL id to the component,
function or process bucket selected by three independent equality tests on
the resolved namespace (an id whose namespace matches none of the three is
dropped from all buckets). -/
def classifyGOs (ns alt : Table) : List String → Except PyError (List String × List String × List String)
  | [] => Except.ok ([], [], [])
  | go :: rest => do
    let w ← resolvedNamespace ns alt go
    let (cs, fs, ps) ← classifyGOs ns alt rest
    Except.ok
      ((if w = "cellular_component" then go :: cs else cs),
       (if w = "molecular_function" then go :: fs else fs),
       (if w = "biological_process" then go :: ps else ps))

/-- optEntry models the conditional attachment pattern of contig_info: the
one-entry list when the key is present in species_informations, nothing
otherwise. -/
def optEntry (infos : Table) (k : String) : List (String × String) :=
  match List.lookup k infos with
  | some v => [(k, v)]
  | none => []

/-- optQual is optEntry for feature qualifiers. -/
def optQual (infos : Table) (k : String) : List (String × QualValue) :=
  match List.lookup k infos with
  | some v => [(k, QualValue.str v)]
  | none => []

/-- contigAnnots collects the record-level annotation entries of
contig_info (lines 39-53), each attached only when its key is present in
species_informations; the date annotation, taken from the wall clock, is
omitted from the model. -/
def contigAnnots (contigId : String) (infos : Table) : List (String × String) :=
  optEntry infos "data_file_division"
  ++ optEntry infos "topology"
  ++ [("accessions", contigId)]
  ++ optEntry infos "organism"
  ++ optEntry infos "taxonomy"
  ++ optEntry infos "keywords"
  ++ optEntry infos "source"

/-- srcFeature models the whole-contig source feature of contig_info
(lines 55-72): FeatureLocation(0, len(contig_seq)) with no strand, the
scaffold qualifier and the conditional species qualifiers. -/
def srcFeature (contigId : String) (seqLen : Nat) (infos : Table) : SeqFeature :=
  { loc := { start := 0, stop := seqLen, strand := none },
    type := "source",
    qualifiers :=
      [("scaffold", QualValue.str contigId)]
      ++ optQual infos "isolate"
      ++ optQual infos "db_xref"
      ++ optQual infos "cell_type"
      ++ optQual infos "dev_stage"
      ++ optQual infos "mol_type" }

/-- contig_info models the Python function contig_info (lines 31-74): build
the contig-level SeqRecord with description taken by subscript (KeyError
when absent), the conditional record-level annotation entries, and the
whole-contig source feature. -/
def contig_info (contigId contigSeq : String) (infos : Table) : Except PyError SeqRecord := do
  let description ← lookupE infos "description"
  Except.ok
    { id := contigId, name := contigId, description := description,
      seq := contigSeq, annots := contigAnnots contigId infos,
      features := [srcFeature contigId contigSeq.length infos] }

/-- idGeneOf models lines 205-209: when the contig id is purely numeric the
source evaluates f("gene_{contig_id}") where f is an undefined name, so the
run aborts with a NameError; otherwise the gene id is the contig id. -/
def idGeneOf (contigId : String) : Except PyError String :=
  if pyIsNumeric contigId then Except.error PyError.nameError
  else Except.ok contigId

/-- goQuals models lines 236-258: when the contig id has an annotation row
whose split GOs field is not the single empty piece, classify every GO id
(a lookup failure aborting the run) and attach the three bucket qualifiers;
otherwise attach nothing. -/
def goQuals (ns alt : Table) (entry : Option AnnotRecord) : Except PyError (List (String × QualValue)) :=
  match entry with
  | some ann =>
    let geneGos := splitAnnot ann.GOs
    if geneGos ≠ [""] then do
      let (cs, fs, ps) ← classifyGOs ns alt geneGos
      Except.ok [("go_component", QualValue.list cs),
                 ("go_function", QualValue.list fs),
                 ("go_process", QualValue.list ps)]
    else Except.ok []
  | none => Except.ok []

/-- ecQuals models lines 261-264: when the contig id has an annotation row
whose split EC field is not the single empty piece, attach the EC_number
qualifier with the ec: prefix stripped from each entry; otherwise attach
nothing. -/
def ecQuals (entry : Option AnnotRecord) : List (String × QualValue) :=
  match entry with
  | some ann =>
    let geneEcs := splitAnnot ann.EC
    if geneEcs ≠ [""] then
      [("EC_number", QualValue.list (geneEcs.map (fun ec => pyReplace ec "ec:" "")))]
    else []
  | none => []

/-- buildCds models lines 225-264: the CDS feature spanning positions 1 to
the contig length with default (absent) strand, carrying the translation
looked up by contig id in the protein mapping (KeyError when absent), the
locus tag, then the GO bucket qualifiers and the EC_number qualifier in
source order. -/
def buildCds (proteins : Table) (annotData : List (String × AnnotRecord)) (ns alt : Table)
    (contigId idGene : String) (endPos : Nat) : Except PyError SeqFeature := do
  let translation ← lookupE proteins contigId
  let gq ← goQuals ns alt (List.lookup contigId annotData)
  Except.ok { loc := { start := 1, stop := endPos, strand := none },
              type := "CDS",
              qualifiers := [("translation", QualValue.str translation),
                             ("locus_tag", QualValue.str idGene)]
                            ++ gq ++ ecQuals (List.lookup contigId annotData) }

/-- geneFeature models the synthetic gene feature of lines 210-218:
FeatureLocation(1, len(contig_seq), 0) — start position 1, end position the
contig length, strand 0 (strand unknown) — with the locus_tag qualifier. -/
def geneFeature (idGene : String) (endPos : Nat) : SeqFeature :=
  { loc := { start := 1, stop := endPos, strand := some 0 },
    type := "gene", qualifiers := [("locus_tag", QualValue.str idGene)] }

/-- processContig models one iteration of the loop at lines 202-269: build
the contig record, compute the gene id (NameError on a numeric contig id),
append the gene feature at positions 1 to the contig length with strand 0
(strand unknown), then build and append the CDS feature. -/
def processContig (contigSeqs : Table) (proteins : Table)
    (infos : Table) (annotData : List (String × AnnotRecord)) (ns alt : Table)
    (contigId : String) : Except PyError SeqRecord := do
  let contigSeq ← lookupE contigSeqs contigId
  let record ← contig_info contigId contigSeq infos
  let idGene ← idGeneOf contigId
  let cds ← buildCds proteins annotData ns alt contigId idGene contigSeq.length
  Except.ok { record with
              features := record.features ++ [geneFeature idGene contigSeq.length, cds] }

/-- mapExcept models a Python for-loop building a list, where an uncaught
exception in any iteration aborts the whole loop with no result list. -/
def mapExcept (f : α → Except PyError β) : List α → Except PyError (List β)
  | [] => Except.ok []
  | a :: l => do
    let b ← f a
    let bs ← mapExcept f l
    Except.ok (b :: bs)

/-- sortedKeys models sorted(contig_seqs): the keys of the dictionary in
lexicographic (code-point) order. -/
def sortedKeys (m : List (String × α)) : List String :=
  List.insertionSort (fun a b => a ≤ b) (m.map Prod.fst)

/-- faaCore models the assembly part of faa_to_gbk (lines 195-269): iterate
over the lexicographically sorted contig ids, process each contig, and
collect the resulting SeqRecord list handed to the GenBank writer. -/
def faaCore (contigSeqs : Table) (proteins : Table) (infos : Table)
    (annotData : List (String × AnnotRecord)) (ns alt : Table) : Except PyError (List SeqRecord) :=
  mapExcept (processContig contigSeqs proteins infos annotData ns alt) (sortedKeys contigSeqs)

deriving instance DecidableEq for Except

@[simp] theorem exceptBind_ok {α β : Type} (a : α) (f : α → Except PyError β) :
    (Except.ok a >>= f) = f a := rfl

@[simp] theorem exceptBind_err {α β : Type} (e : PyError) (f : α → Except PyError β) :
    ((Except.error e : Except PyError α) >>= f) = Except.error e := rfl

theorem lookupE_ok {α : Type} {t : List (String × α)} {k : String} {v : α}
    (h : List.lookup k t = some v) : lookupE t k = Except.ok v := by
  simp [lookupE, h]

theorem lookupE_err {α : Type} {t : List (String × α)} {k : String}
    (h : List.lookup k t = none) : lookupE t k = Except.error (PyError.keyError k) := by
  simp [lookupE, h]

theorem lookup_some_of_mem_keys {α : Type} {m : List (String × α)} {k : String}
    (h : k ∈ m.map Prod.fst) : ∃ v, List.lookup k m = some v := by
  induction m with
  | nil => simp at h
  | cons x t ih =>
    obtain ⟨a, b⟩ := x
    by_cases hk : k = a
    · subst hk
      exact ⟨b, by simp [List.lookup]⟩
    · have hmem : k ∈ t.map Prod.fst := by simpa [hk] using h
      obtain ⟨v, hv⟩ := ih hmem
      have hbeq : (k == a) = false := by simp [hk]
      exact ⟨v, by simp [List.lookup, hbeq, hv]⟩

theorem resolvedNamespace_direct {ns alt : Table} {go w : String}
    (h : List.lookup go ns = some w) : resolvedNamespace ns alt go = Except.ok w := by
  simp [resolvedNamespace, h, lookupE]

theorem resolvedNamespace_alias {ns alt : Table} {go r w : String}
    (h1 : List.lookup go ns = none) (h2 : List.lookup go alt = some r)
    (h3 : List.lookup r ns = some w) : resolvedNamespace ns alt go = Except.ok w := by
  simp [resolvedNamespace, h1, h2, h3, lookupE]

theorem resolvedNamespace_absent {ns alt : Table} {go : String}
    (h1 : List.lookup go ns = none) (h2 : List.lookup go alt = none) :
    resolvedNamespace ns alt go = Except.error (PyError.keyError go) := by
  simp [resolvedNamespace, h1, h2, lookupE]

theorem classifyGOs_error_of_mem {ns alt : Table} {go : String} {gos : List String}
    (hmem : go ∈ gos) (h1 : List.lookup go ns = none) (h2 : List.lookup go alt = none) :
    ∃ e, classifyGOs ns alt gos = Except.error e := by
  induction gos with
  | nil => simp at hmem
  | cons x rest ih =>
    rcases List.mem_cons.mp hmem with hx | hx
    · subst hx
      exact ⟨PyError.keyError go, by simp [classifyGOs, resolvedNamespace_absent h1 h2]⟩
    · cases hres : resolvedNamespace ns alt x with
      | error e => exact ⟨e, by simp [classifyGOs, hres]⟩
      | ok w =>
        obtain ⟨e, he⟩ := ih hx
        exact ⟨e, by simp [classifyGOs, hres, he]⟩

/-- Claim C3: a GO id present in the namespace table classifies by its own
namespace; one absent there but present in the alias table classifies by
its replacement's namespace; one absent from both aborts the run with a
lookup failure. -/
theorem go_namespace_resolution (ns alt : Table) (go : String) :
    (∀ w, List.lookup go ns = some w → resolvedNamespace ns alt go = Except.ok w) ∧
    (List.lookup go ns = none → ∀ r w, List.lookup go alt = some r →
      List.lookup r ns = some w → resolvedNamespace ns alt go = Except.ok w) ∧
    (List.lookup go ns = none → List.lookup go alt = none →
      ∀ gos, go ∈ gos → ∃ e, classifyGOs ns alt gos = Except.error e) := by
  refine ⟨fun w h => resolvedNamespace_direct h,
          fun h1 r w h2 h3 => resolvedNamespace_alias h1 h2 h3,
          fun h1 h2 gos hmem => classifyGOs_error_of_mem hmem h1 h2⟩

/-- Witness for C3 at concrete tables: GO:A classifies directly, GO:B via
its alias GO:A, and GO:C aborts classification. -/
theorem go_namespace_resolution_witness :
    resolvedNamespace [("GO:A", "cellular_component")] [("GO:B", "GO:A")] "GO:A"
      = Except.ok "cellular_component" ∧
    resolvedNamespace [("GO:A", "cellular_component")] [("GO:B", "GO:A")] "GO:B"
      = Except.ok "cellular_component" ∧
    ∃ e, classifyGOs [("GO:A", "cellular_component")] [("GO:B", "GO:A")] ["GO:C"]
      = Except.error e := by
  refine ⟨(go_namespace_resolution _ _ "GO:A").1 _ (by decide),
          (go_namespace_resolution _ _ "GO:B").2.1 (by decide) "GO:A" _ (by decide) (by decide),
          (go_namespace_resolution _ _ "GO:C").2.2 (by decide) (by decide) _ (by decide)⟩

/-- Claim C9: a deprecated GO id g resolved through the alias table is
appended to the namespace buckets as g itself; the replacement only selects
which bucket receives it. -/
theorem deprecated_go_appends_original (ns alt : Table) (g r w : String) (rest : List String)
    (hns : List.lookup g ns = none) (halt : List.lookup g alt = some r)
    (hr : List.lookup r ns = some w) :
    classifyGOs ns alt (g :: rest) =
      (classifyGOs ns alt rest).map (fun b =>
        ((if w = "cellular_component" then g :: b.1 else b.1),
         (if w = "molecular_function" then g :: b.2.1 else b.2.1),
         (if w = "biological_process" then g :: b.2.2 else b.2.2))) := by
  cases hcl : classifyGOs ns alt rest with
  | error e => simp [classifyGOs, resolvedNamespace_alias hns halt hr, hcl, Except.map]
  | ok b =>
    obtain ⟨cs, fs, ps⟩ := b
    simp [classifyGOs, resolvedNamespace_alias hns halt hr, hcl, Except.map]

/-- Witness for C9: deprecated GO:B with replacement GO:A of namespace
cellular_component lands in the component bucket as GO:B. -/
theorem deprecated_go_appends_original_witness :
    classifyGOs [("GO:A", "cellular_component")] [("GO:B", "GO:A")] ["GO:B"] =
      (classifyGOs [("GO:A", "cellular_component")] [("GO:B", "GO:A")] []).map (fun b =>
        ((if "cellular_component" = "cellular_component" then "GO:B" :: b.1 else b.1),
         (if "cellular_component" = "molecular_function" then "GO:B" :: b.2.1 else b.2.1),
         (if "cellular_component" = "biological_process" then "GO:B" :: b.2.2 else b.2.2))) :=
  deprecated_go_appends_original _ _ "GO:B" "GO:A" "cellular_component" []
    (by decide) (by decide) (by decide)

theorem goQuals_ok_shape {ns alt : Table} {entry : Option AnnotRecord}
    {gq : List (String × QualValue)} (h : goQuals ns alt entry = Except.ok gq) :
    gq = [] ∨ ∃ cs fs ps, gq = [("go_component", QualValue.list cs),
                               ("go_function", QualValue.list fs),
                               ("go_process", QualValue.list ps)] := by
  cases entry with
  | none =>
    simp [goQuals] at h
    exact Or.inl h
  | some ann =>
    by_cases hgos : splitAnnot ann.GOs = [""]
    · simp [goQuals, hgos] at h
      exact Or.inl h
    · cases hcl : classifyGOs ns alt (splitAnnot ann.GOs) with
      | error e => simp [goQuals, hgos, hcl] at h
      | ok b =>
        obtain ⟨cs, fs, ps⟩ := b
        simp [goQuals, hgos, hcl] at h
        exact Or.inr ⟨cs, fs, ps, h.symm⟩

/-- Claim C5: an annotation row whose EC field is "1.1.1.1;ec:2.2.2.2"
yields the CDS qualifier EC_number = ["1.1.1.1", "2.2.2.2"]: the raw string
is split on semicolons and commas and the ec: prefix is stripped. -/
theorem ec_split_and_strip (proteins : Table) (annotData : List (String × AnnotRecord))
    (ns alt : Table) (cid idg : String) (endPos : Nat) (ann : AnnotRecord) (cds : SeqFeature)
    (hann : List.lookup cid annotData = some ann)
    (hec : ann.EC = "1.1.1.1;ec:2.2.2.2")
    (hok : buildCds proteins annotData ns alt cid idg endPos = Except.ok cds) :
    List.lookup "EC_number" cds.qualifiers = some (QualValue.list ["1.1.1.1", "2.2.2.2"]) := by
  cases hp : List.lookup cid proteins with
  | none => simp [buildCds, lookupE, hp] at hok
  | some t =>
    cases hgq : goQuals ns alt (List.lookup cid annotData) with
    | error e => simp [buildCds, lookupE, hp, hgq] at hok
    | ok gq =>
      have hsplit : splitAnnot "1.1.1.1;ec:2.2.2.2" = ["1.1.1.1", "ec:2.2.2.2"] := by decide
      have hmap : List.map (fun ec => pyReplace ec "ec:" "") ["1.1.1.1", "ec:2.2.2.2"]
          = ["1.1.1.1", "2.2.2.2"] := by
        simp [pyReplace, replaceList]
      have hecq : ecQuals (List.lookup cid annotData)
          = [("EC_number", QualValue.list ["1.1.1.1", "2.2.2.2"])] := by
        rw [hann]
        simp [ecQuals, hec, hsplit, hmap]
      simp [buildCds, lookupE, hp, hgq, hecq] at hok
      rcases goQuals_ok_shape hgq with h | ⟨cs, fs, ps, h⟩ <;> subst h <;>
        simp [← hok, List.lookup]

/-- Witness for C5 at fully concrete inputs. -/
theorem ec_split_and_strip_witness :
    List.lookup "EC_number"
      (match buildCds [("g1", "MK")] [("g1", { GOs := "", EC := "1.1.1.1;ec:2.2.2.2" })] [] [] "g1" "g1" 4 with
       | Except.ok cds => cds.qualifiers
       | Except.error _ => []) = some (QualValue.list ["1.1.1.1", "2.2.2.2"]) := by
  have h := ec_split_and_strip [("g1", "MK")] [("g1", { GOs := "", EC := "1.1.1.1;ec:2.2.2.2" })]
    [] [] "g1" "g1" 4 { GOs := "", EC := "1.1.1.1;ec:2.2.2.2" }
    { loc := { start := 1, stop := 4, strand := none }, type := "CDS",
      qualifiers := [("translation", QualValue.str "MK"), ("locus_tag", QualValue.str "g1"),
                     ("EC_number", QualValue.list ["1.1.1.1", "2.2.2.2"])] }
    (by decide) rfl (by simp [buildCds, goQuals, ecQuals, lookupE, List.lookup, splitAnnot,
      splitList, pyReplace, replaceList])
  simp [buildCds, goQuals, ecQuals, lookupE, List.lookup, splitAnnot, splitList,
    pyReplace, replaceList]

theorem goQuals_none (ns alt : Table) : goQuals ns alt none = Except.ok [] := rfl

theorem goQuals_empty {ns alt : Table} {ann : AnnotRecord} (h : ann.GOs = "") :
    goQuals ns alt (some ann) = Except.ok [] := by
  have hsplit : splitAnnot "" = [""] := by decide
  simp [goQuals, h, hsplit]

theorem ecQuals_none : ecQuals none = [] := rfl

theorem ecQuals_empty {ann : AnnotRecord} (h : ann.EC = "") : ecQuals (some ann) = [] := by
  have hsplit : splitAnnot "" = [""] := by decide
  simp [ecQuals, h, hsplit]

theorem ecQuals_shape (entry : Option AnnotRecord) :
    ecQuals entry = [] ∨ ∃ v, ecQuals entry = [("EC_number", v)] := by
  cases entry with
  | none => exact Or.inl rfl
  | some ann =>
    by_cases hec : splitAnnot ann.EC = [""]
    · exact Or.inl (by simp [ecQuals, hec])
    · exact Or.inr ⟨QualValue.list ((splitAnnot ann.EC).map (fun ec => pyReplace ec "ec:" "")),
        by simp [ecQuals, hec]⟩

theorem buildCds_ok_eq {proteins : Table} {annotData : List (String × AnnotRecord)}
    {ns alt : Table} {cid : String} (idg : String) (endPos : Nat) {t : String}
    {gq : List (String × QualValue)}
    (hp : List.lookup cid proteins = some t)
    (hgq : goQuals ns alt (List.lookup cid annotData) = Except.ok gq) :
    buildCds proteins annotData ns alt cid idg endPos = Except.ok
      { loc := { start := 1, stop := endPos, strand := none }, type := "CDS",
        qualifiers := [("translation", QualValue.str t), ("locus_tag", QualValue.str idg)]
                      ++ gq ++ ecQuals (List.lookup cid annotData) } := by
  simp only [buildCds, lookupE, hp, hgq, exceptBind_ok]

theorem buildCds_ok_inv {proteins : Table} {annotData : List (String × AnnotRecord)}
    {ns alt : Table} {cid idg : String} {endPos : Nat} {cds : SeqFeature}
    (hok : buildCds proteins annotData ns alt cid idg endPos = Except.ok cds) :
    ∃ t gq, List.lookup cid proteins = some t ∧
      goQuals ns alt (List.lookup cid annotData) = Except.ok gq ∧
      cds = { loc := { start := 1, stop := endPos, strand := none }, type := "CDS",
              qualifiers := [("translation", QualValue.str t), ("locus_tag", QualValue.str idg)]
                            ++ gq ++ ecQuals (List.lookup cid annotData) } := by
  cases hp : List.lookup cid proteins with
  | none => simp [buildCds, lookupE, hp] at hok
  | some t =>
    cases hgq : goQuals ns alt (List.lookup cid annotData) with
    | error e => simp [buildCds, lookupE, hp, hgq] at hok
    | ok gq =>
      refine ⟨t, gq, rfl, rfl, ?_⟩
      simp only [buildCds, lookupE, hp, hgq, exceptBind_ok, Except.ok.injEq] at hok
      exact hok.symm

theorem processContig_ok_eq {contigSeqs proteins infos : Table}
    {annotData : List (String × AnnotRecord)} {ns alt : Table} {cid cseq d : String}
    {cds : SeqFeature}
    (hseq : List.lookup cid contigSeqs = some cseq)
    (hdesc : List.lookup "description" infos = some d)
    (hnum : pyIsNumeric cid = false)
    (hcds : buildCds proteins annotData ns alt cid cid cseq.length = Except.ok cds) :
    processContig contigSeqs proteins infos annotData ns alt cid = Except.ok
      { id := cid, name := cid, description := d, seq := cseq,
        annots := contigAnnots cid infos,
        features := [srcFeature cid cseq.length infos, geneFeature cid cseq.length, cds] } := by
  simp [processContig, contig_info, lookupE, idGeneOf, hseq, hdesc, hnum, hcds]

theorem processContig_ok_inv {contigSeqs proteins infos : Table}
    {annotData : List (String × AnnotRecord)} {ns alt : Table} {cid : String} {r : SeqRecord}
    (hok : processContig contigSeqs proteins infos annotData ns alt cid = Except.ok r) :
    ∃ cseq d cds, List.lookup cid contigSeqs = some cseq ∧
      List.lookup "description" infos = some d ∧
      pyIsNumeric cid = false ∧
      buildCds proteins annotData ns alt cid cid cseq.length = Except.ok cds ∧
      r = { id := cid, name := cid, description := d, seq := cseq,
            annots := contigAnnots cid infos,
            features := [srcFeature cid cseq.length infos, geneFeature cid cseq.length, cds] } := by
  cases hseq : List.lookup cid contigSeqs with
  | none => simp [processContig, lookupE, hseq] at hok
  | some cseq =>
    cases hdesc : List.lookup "description" infos with
    | none => simp [processContig, contig_info, lookupE, hseq, hdesc] at hok
    | some d =>
      cases hnum : pyIsNumeric cid with
      | true => simp [processContig, contig_info, lookupE, idGeneOf, hseq, hdesc, hnum] at hok
      | false =>
        cases hcds : buildCds proteins annotData ns alt cid cid cseq.length with
        | error e =>
          simp [processContig, contig_info, lookupE, idGeneOf, hseq, hdesc, hnum, hcds] at hok
        | ok cds =>
          refine ⟨cseq, d, cds, rfl, rfl, rfl, hcds, ?_⟩
          simp [processContig, contig_info, lookupE, idGeneOf, hseq, hdesc, hnum, hcds] at hok
          exact hok.symm

theorem mapExcept_error_of_mem {α β : Type} {f : α → Except PyError β} {l : List α} {a : α}
    (hmem : a ∈ l) (ha : ∀ b, f a ≠ Except.ok b) :
    ∃ e, mapExcept f l = Except.error e := by
  induction l with
  | nil => simp at hmem
  | cons x t ih =>
    cases hx : f x with
    | error e => exact ⟨e, by simp [mapExcept, hx]⟩
    | ok b =>
      rcases List.mem_cons.mp hmem with h | h
      · subst h
        exact absurd hx (ha b)
      · obtain ⟨e, he⟩ := ih h
        exact ⟨e, by simp [mapExcept, hx, he]⟩

/-- Claim C7: the synthetic gene feature is located from position 1 to the
contig length with strand 0 (unknown), and the CDS feature spans the same
range. -/
theorem gene_cds_span (contigSeqs proteins infos : Table)
    (annotData : List (String × AnnotRecord)) (ns alt : Table) (cid cseq : String)
    (r : SeqRecord)
    (hseq : List.lookup cid contigSeqs = some cseq)
    (hok : processContig contigSeqs proteins infos annotData ns alt cid = Except.ok r) :
    (∀ ft ∈ r.features, ft.type = "gene" →
      ft.loc = { start := 1, stop := cseq.length, strand := some 0 }) ∧
    (∀ ft ∈ r.features, ft.type = "CDS" →
      ft.loc.start = 1 ∧ ft.loc.stop = cseq.length) := by
  obtain ⟨cseq', d, cds, hseq', hdesc, hnum, hcds, hr⟩ := processContig_ok_inv hok
  rw [hseq] at hseq'
  obtain rfl : cseq = cseq' := Option.some.inj hseq'
  subst hr
  obtain ⟨t, gq, hp, hgq, rfl⟩ := buildCds_ok_inv hcds
  constructor
  · intro ft hft hty
    simp only [List.mem_cons, List.not_mem_nil, or_false] at hft
    rcases hft with rfl | rfl | rfl
    · simp [srcFeature] at hty
    · rfl
    · simp at hty
  · intro ft hft hty
    simp only [List.mem_cons, List.not_mem_nil, or_false] at hft
    rcases hft with rfl | rfl | rfl
    · simp [srcFeature] at hty
    · simp [geneFeature] at hty
    · exact ⟨rfl, rfl⟩

/-- Witness for C7 at a concrete contig of length 4. -/
theorem gene_cds_span_witness :
    (∀ ft ∈ [srcFeature "c1" 4 [("description", "sp")], geneFeature "c1" 4,
             ({ loc := { start := 1, stop := 4, strand := none }, type := "CDS",
                qualifiers := [("translation", QualValue.str "MK"),
                               ("locus_tag", QualValue.str "c1")] } : SeqFeature)],
      ft.type = "gene" → ft.loc = { start := 1, stop := 4, strand := some 0 }) ∧
    (∀ ft ∈ [srcFeature "c1" 4 [("description", "sp")], geneFeature "c1" 4,
             ({ loc := { start := 1, stop := 4, strand := none }, type := "CDS",
                qualifiers := [("translation", QualValue.str "MK"),
                               ("locus_tag", QualValue.str "c1")] } : SeqFeature)],
      ft.type = "CDS" → ft.loc.start = 1 ∧ ft.loc.stop = 4) :=
  gene_cds_span [("c1", "ACGT")] [("c1", "MK")] [("description", "sp")] [] [] [] "c1" "ACGT"
    { id := "c1", name := "c1", description := "sp", seq := "ACGT",
      annots := contigAnnots "c1" [("description", "sp")],
      features := [srcFeature "c1" 4 [("description", "sp")], geneFeature "c1" 4,
                   { loc := { start := 1, stop := 4, strand := none }, type := "CDS",
                     qualifiers := [("translation", QualValue.str "MK"),
                                    ("locus_tag", QualValue.str "c1")] }] }
    (by decide) (by decide)

/-- Claim C8: an annotation row with empty GOs string (respectively empty
EC string) is treated as no annotation: assembly succeeds and the CDS
feature carries no go_component/go_function/go_process qualifiers
(respectively no EC_number qualifier). -/
theorem empty_annotation_fields_skip (contigSeqs proteins infos : Table)
    (annotData : List (String × AnnotRecord)) (ns alt : Table)
    (cid cseq pseq d : String) (ann : AnnotRecord)
    (hseq : List.lookup cid contigSeqs = some cseq)
    (hdesc : List.lookup "description" infos = some d)
    (hnum : pyIsNumeric cid = false)
    (hprot : List.lookup cid proteins = some pseq)
    (hann : List.lookup cid annotData = some ann) :
    (ann.GOs = "" →
      ∃ r, processContig contigSeqs proteins infos annotData ns alt cid = Except.ok r ∧
        ∀ ft ∈ r.features, ft.type = "CDS" →
          List.lookup "go_component" ft.qualifiers = none ∧
          List.lookup "go_function" ft.qualifiers = none ∧
          List.lookup "go_process" ft.qualifiers = none ∧
          (ann.EC = "" → List.lookup "EC_number" ft.qualifiers = none)) ∧
    (ann.EC = "" →
      ∀ r, processContig contigSeqs proteins infos annotData ns alt cid = Except.ok r →
        ∀ ft ∈ r.features, ft.type = "CDS" →
          List.lookup "EC_number" ft.qualifiers = none) := by
  constructor
  · intro hgos
    have hgq : goQuals ns alt (List.lookup cid annotData) = Except.ok [] := by
      rw [hann]
      exact goQuals_empty hgos
    have hcds := buildCds_ok_eq cid cseq.length hprot hgq
    refine ⟨_, processContig_ok_eq hseq hdesc hnum hcds, ?_⟩
    intro ft hft hty
    simp only [List.mem_cons, List.not_mem_nil, or_false] at hft
    rcases hft with rfl | rfl | rfl
    · simp [srcFeature] at hty
    · simp [geneFeature] at hty
    · refine ⟨?_, ?_, ?_, ?_⟩
      · rcases ecQuals_shape (List.lookup cid annotData) with hsh | ⟨v, hsh⟩ <;>
          simp [hsh, List.lookup]
      · rcases ecQuals_shape (List.lookup cid annotData) with hsh | ⟨v, hsh⟩ <;>
          simp [hsh, List.lookup]
      · rcases ecQuals_shape (List.lookup cid annotData) with hsh | ⟨v, hsh⟩ <;>
          simp [hsh, List.lookup]
      · intro hec
        rw [hann, ecQuals_empty hec]
        simp [List.lookup]
  · intro hec r hok ft hft hty
    obtain ⟨cseq', d', cds, hseq', hdesc', hnum', hcds, hr⟩ := processContig_ok_inv hok
    subst hr
    obtain ⟨t, gq, hp, hgq, rfl⟩ := buildCds_ok_inv hcds
    simp only [List.mem_cons, List.not_mem_nil, or_false] at hft
    rcases hft with rfl | rfl | rfl
    · simp [srcFeature] at hty
    · simp [geneFeature] at hty
    · rw [hann, ecQuals_empty hec]
      rcases goQuals_ok_shape hgq with rfl | ⟨cs, fs, ps, rfl⟩ <;> simp [List.lookup]

/-- Witness for C8 at a concrete contig whose annotation row has empty GOs
and EC fields. -/
theorem empty_annotation_fields_skip_witness :
    ∃ r, processContig [("c1", "ACGT")] [("c1", "MK")] [("description", "sp")]
        [("c1", { GOs := "", EC := "" })] [] [] "c1" = Except.ok r ∧
      ∀ ft ∈ r.features, ft.type = "CDS" →
        List.lookup "go_component" ft.qualifiers = none ∧
        List.lookup "go_function" ft.qualifiers = none ∧
        List.lookup "go_process" ft.qualifiers = none ∧
        ("" = "" → List.lookup "EC_number" ft.qualifiers = none) :=
  (empty_annotation_fields_skip [("c1", "ACGT")] [("c1", "MK")] [("description", "sp")]
    [("c1", { GOs := "", EC := "" })] [] [] "c1" "ACGT" "MK" "sp" { GOs := "", EC := "" }
    (by decide) (by decide) (by decide) (by decide) (by decide)).1 rfl

/-- Claim C10: a contig with no annotation row at all assembles without
error and its CDS feature carries no GO bucket qualifiers and no EC_number
qualifier. -/
theorem no_annotation_row_ok (contigSeqs proteins infos : Table)
    (annotData : List (String × AnnotRecord)) (ns alt : Table) (cid cseq pseq d : String)
    (hseq : List.lookup cid contigSeqs = some cseq)
    (hdesc : List.lookup "description" infos = some d)
    (hnum : pyIsNumeric cid = false)
    (hprot : List.lookup cid proteins = some pseq)
    (hann : List.lookup cid annotData = none) :
    ∃ r, processContig contigSeqs proteins infos annotData ns alt cid = Except.ok r ∧
      ∀ ft ∈ r.features, ft.type = "CDS" →
        List.lookup "go_component" ft.qualifiers = none ∧
        List.lookup "go_function" ft.qualifiers = none ∧
        List.lookup "go_process" ft.qualifiers = none ∧
        List.lookup "EC_number" ft.qualifiers = none := by
  have hgq : goQuals ns alt (List.lookup cid annotData) = Except.ok [] := by
    rw [hann]
    rfl
  have hcds := buildCds_ok_eq cid cseq.length hprot hgq
  refine ⟨_, processContig_ok_eq hseq hdesc hnum hcds, ?_⟩
  intro ft hft hty
  simp only [List.mem_cons, List.not_mem_nil, or_false] at hft
  rcases hft with rfl | rfl | rfl
  · simp [srcFeature] at hty
  · simp [geneFeature] at hty
  · rw [hann]
    simp [ecQuals, List.lookup]

/-- Witness for C10 at a concrete contig absent from the annotation
table. -/
theorem no_annotation_row_ok_witness :
    ∃ r, processContig [("c1", "ACGT")] [("c1", "MK")] [("description", "sp")]
        [("c2", { GOs := "GO:X", EC := "9.9.9.9" })] [] [] "c1" = Except.ok r ∧
      ∀ ft ∈ r.features, ft.type = "CDS" →
        List.lookup "go_component" ft.qualifiers = none ∧
        List.lookup "go_function" ft.qualifiers = none ∧
        List.lookup "go_process" ft.qualifiers = none ∧
        List.lookup "EC_number" ft.qualifiers = none :=
  no_annotation_row_ok [("c1", "ACGT")] [("c1", "MK")] [("description", "sp")]
    [("c2", { GOs := "GO:X", EC := "9.9.9.9" })] [] [] "c1" "ACGT" "MK" "sp"
    (by decide) (by decide) (by decide) (by decide) (by decide)

/-- Claim C2: a contig id present in the contig-sequence mapping but absent
from the protein-sequence mapping makes the CDS translation lookup raise an
unrecovered KeyError, and the whole run aborts with no output record
list. -/
theorem missing_protein_aborts (contigSeqs proteins infos : Table)
    (annotData : List (String × AnnotRecord)) (ns alt : Table) (cid d : String)
    (hmem : cid ∈ contigSeqs.map Prod.fst)
    (hnone : List.lookup cid proteins = none)
    (hdesc : List.lookup "description" infos = some d)
    (hnum : pyIsNumeric cid = false) :
    processContig contigSeqs proteins infos annotData ns alt cid
      = Except.error (PyError.keyError cid) ∧
    ∃ e, faaCore contigSeqs proteins infos annotData ns alt = Except.error e := by
  obtain ⟨cseq, hseq⟩ := lookup_some_of_mem_keys hmem
  have hproc : processContig contigSeqs proteins infos annotData ns alt cid
      = Except.error (PyError.keyError cid) := by
    simp [processContig, contig_info, buildCds, lookupE, idGeneOf, hseq, hdesc, hnum, hnone]
  refine ⟨hproc, ?_⟩
  have hmem' : cid ∈ sortedKeys contigSeqs :=
    (List.perm_insertionSort _ _).mem_iff.mpr hmem
  exact mapExcept_error_of_mem hmem' (fun b hb => by rw [hproc] at hb; exact absurd hb (by simp))

/-- Witness for C2: contig c1 has a genome sequence but no protein
sequence, so the run aborts. -/
theorem missing_protein_aborts_witness :
    processContig [("c1", "ACGT")] [] [("description", "sp")] [] [] [] "c1"
      = Except.error (PyError.keyError "c1") ∧
    ∃ e, faaCore [("c1", "ACGT")] [] [("description", "sp")] [] [] [] = Except.error e :=
  missing_protein_aborts [("c1", "ACGT")] [] [("description", "sp")] [] [] [] "c1" "sp"
    (by decide) (by decide) (by decide) (by decide)

/-- Claim C6 (code defect): the numeric-contig-id branch of lines 205-209
evaluates the undefined name f, so instead of producing a gene_123 locus
tag for the purely numeric contig id 123, assembly aborts with a NameError
even when every lookup would succeed. -/
theorem numeric_contig_id_aborts :
    processContig [("123", "ACGT")] [("123", "MK")] [("description", "sp")] [] [] [] "123"
      = Except.error PyError.nameError := by decide

theorem mapExcept_congr {α β : Type} {f g : α → Except PyError β} {l : List α}
    (h : ∀ a ∈ l, f a = g a) : mapExcept f l = mapExcept g l := by
  induction l with
  | nil => rfl
  | cons x t ih =>
    simp only [mapExcept, h x (by simp)]
    rw [ih (fun a ha => h a (List.mem_cons_of_mem _ ha))]

theorem mapExcept_ok_ids {α β : Type} {f : α → Except PyError β} {g : β → α}
    {l : List α} {ys : List β}
    (hok : mapExcept f l = Except.ok ys) (hid : ∀ a b, f a = Except.ok b → g b = a) :
    ys.map g = l := by
  induction l generalizing ys with
  | nil =>
    simp only [mapExcept, Except.ok.injEq] at hok
    subst hok
    rfl
  | cons x t ih =>
    cases hx : f x with
    | error e => simp [mapExcept, hx] at hok
    | ok b =>
      cases hrest : mapExcept f t with
      | error e => simp [mapExcept, hx, hrest] at hok
      | ok bs =>
        simp only [mapExcept, hx, hrest, exceptBind_ok, Except.ok.injEq] at hok
        subst hok
        simp [hid x b hx, ih hrest]

theorem processContig_id {contigSeqs proteins infos : Table}
    {annotData : List (String × AnnotRecord)} {ns alt : Table} {cid : String} {r : SeqRecord}
    (hok : processContig contigSeqs proteins infos annotData ns alt cid = Except.ok r) :
    r.id = cid := by
  obtain ⟨cseq, d, cds, hseq, hdesc, hnum, hcds, hr⟩ := processContig_ok_inv hok
  subst hr
  rfl

theorem lookup_perm {α : Type} {l₁ l₂ : List (String × α)} (hp : l₁.Perm l₂) :
    (l₁.map Prod.fst).Nodup → ∀ k, List.lookup k l₁ = List.lookup k l₂ := by
  induction hp with
  | nil => intro _ k; rfl
  | cons x hp ih =>
    intro hnd k
    obtain ⟨a, b⟩ := x
    rw [List.map_cons] at hnd
    have hnd' := (List.nodup_cons.mp hnd).2
    cases hka : k == a with
    | true => simp [List.lookup, hka]
    | false => simp [List.lookup, hka, ih hnd' k]
  | swap x y l =>
    intro hnd k
    obtain ⟨a, b⟩ := x
    obtain ⟨c, d⟩ := y
    rw [List.map_cons, List.map_cons] at hnd
    have hcm : c ∉ a :: List.map Prod.fst l := (List.nodup_cons.mp hnd).1
    have hne : c ≠ a := fun h => hcm (h ▸ List.mem_cons_self a _)
    by_cases hk : k = c
    · have h1 : (k == c) = true := beq_iff_eq.mpr hk
      have hka : k ≠ a := by rw [hk]; exact hne
      have h2 : (k == a) = false := beq_eq_false_iff_ne.mpr hka
      simp [List.lookup, h1, h2]
    · have h1 : (k == c) = false := beq_eq_false_iff_ne.mpr hk
      by_cases hk2 : k = a
      · have h2 : (k == a) = true := beq_iff_eq.mpr hk2
        simp [List.lookup, h1, h2]
      · have h2 : (k == a) = false := beq_eq_false_iff_ne.mpr hk2
        simp [List.lookup, h1, h2]
  | trans p₁ p₂ ih₁ ih₂ =>
    intro hnd k
    have hnd₂ := ((p₁.map Prod.fst).nodup_iff).mp hnd
    rw [ih₁ hnd k, ih₂ hnd₂ k]

/-- Claim C4: the output record list is ordered by lexicographically sorted
contig identifier, and two contig mappings holding the same pairs in
different insertion orders produce identical output. -/
theorem output_order_sorted (contigSeqs₁ contigSeqs₂ proteins infos : Table)
    (annotData : List (String × AnnotRecord)) (ns alt : Table)
    (hp : contigSeqs₁.Perm contigSeqs₂)
    (hnd : (contigSeqs₁.map Prod.fst).Nodup) :
    faaCore contigSeqs₁ proteins infos annotData ns alt
      = faaCore contigSeqs₂ proteins infos annotData ns alt ∧
    (sortedKeys contigSeqs₁).Sorted (fun a b => a ≤ b) ∧
    (sortedKeys contigSeqs₁).Perm (contigSeqs₁.map Prod.fst) ∧
    ∀ records, faaCore contigSeqs₁ proteins infos annotData ns alt = Except.ok records →
      records.map SeqRecord.id = sortedKeys contigSeqs₁ := by
  have hkeys : sortedKeys contigSeqs₁ = sortedKeys contigSeqs₂ := by
    apply List.eq_of_perm_of_sorted
      ((List.perm_insertionSort _ _).trans
        ((hp.map Prod.fst).trans (List.perm_insertionSort _ _).symm))
      (List.sorted_insertionSort _ _) (List.sorted_insertionSort _ _)
  refine ⟨?_, List.sorted_insertionSort _ _, List.perm_insertionSort _ _, ?_⟩
  · simp only [faaCore]
    rw [hkeys]
    exact mapExcept_congr (fun cid _ => by
      simp only [processContig, lookupE, lookup_perm hp hnd cid])
  · intro records hok
    exact mapExcept_ok_ids hok (fun a b hb => processContig_id hb)

/-- Witness for C4: two insertion orders of the same two contigs. -/
theorem output_order_sorted_witness :
    faaCore [("b", "AC"), ("a", "GT")] [("a", "M"), ("b", "K")] [("description", "sp")] [] [] []
      = faaCore [("a", "GT"), ("b", "AC")] [("a", "M"), ("b", "K")] [("description", "sp")] [] [] [] ∧
    (sortedKeys [("b", "AC"), ("a", "GT")]).Sorted (fun a b => a ≤ b) ∧
    (sortedKeys [("b", "AC"), ("a", "GT")]).Perm ([("b", "AC"), ("a", "GT")].map Prod.fst) ∧
    ∀ records,
      faaCore [("b", "AC"), ("a", "GT")] [("a", "M"), ("b", "K")] [("description", "sp")] [] [] []
        = Except.ok records →
      records.map SeqRecord.id = sortedKeys [("b", "AC"), ("a", "GT")] :=
  output_order_sorted [("b", "AC"), ("a", "GT")] [("a", "GT"), ("b", "AC")]
    [("a", "M"), ("b", "K")] [("description", "sp")] [] [] []
    (List.Perm.swap ("a", "GT") ("b", "AC") []) (by decide)

/-- Claim C1: the round-trip scenario — one contig c1 with a 500-base
sequence, a 150-residue protein c1, an annotation row with GOs
GO:0005575;GO:0003674 and EC 1.1.1.1, and the namespace table mapping
GO:0005575 to cellular_component and GO:0003674 to molecular_function —
yields exactly one gene feature and one CDS feature, the CDS carrying
go_component ["GO:0005575"], go_function ["GO:0003674"], go_process [],
EC_number ["1.1.1.1"] and the protein sequence as translation. -/
theorem roundtrip_single_contig (gseq pseq d : String)
    (hg : gseq.length = 500) (hpl : pseq.length = 150) :
    ∃ r : SeqRecord,
      faaCore [("c1", gseq)] [("c1", pseq)] [("description", d)]
        [("c1", { GOs := "GO:0005575;GO:0003674", EC := "1.1.1.1" })]
        [("GO:0005575", "cellular_component"), ("GO:0003674", "molecular_function")] []
        = Except.ok [r] ∧
      (r.features.filter (fun ft => ft.type == "gene")).length = 1 ∧
      (r.features.filter (fun ft => ft.type == "CDS")).length = 1 ∧
      ∀ ft ∈ r.features, ft.type = "CDS" →
        List.lookup "go_component" ft.qualifiers = some (QualValue.list ["GO:0005575"]) ∧
        List.lookup "go_function" ft.qualifiers = some (QualValue.list ["GO:0003674"]) ∧
        List.lookup "go_process" ft.qualifiers = some (QualValue.list []) ∧
        List.lookup "EC_number" ft.qualifiers = some (QualValue.list ["1.1.1.1"]) ∧
        List.lookup "translation" ft.qualifiers = some (QualValue.str pseq) := by
  have hprot : List.lookup "c1" [("c1", pseq)] = some pseq := by simp [List.lookup]
  have hseq : List.lookup "c1" [("c1", gseq)] = some gseq := by simp [List.lookup]
  have hdesc : List.lookup "description" [("description", d)] = some d := by simp [List.lookup]
  have hgq : goQuals [("GO:0005575", "cellular_component"), ("GO:0003674", "molecular_function")] []
      (List.lookup "c1"
        [("c1", ({ GOs := "GO:0005575;GO:0003674", EC := "1.1.1.1" } : AnnotRecord))])
      = Except.ok [("go_component", QualValue.list ["GO:0005575"]),
                   ("go_function", QualValue.list ["GO:0003674"]),
                   ("go_process", QualValue.list [])] := by decide
  have hecq : ecQuals (List.lookup "c1"
      [("c1", ({ GOs := "GO:0005575;GO:0003674", EC := "1.1.1.1" } : AnnotRecord))])
      = [("EC_number", QualValue.list ["1.1.1.1"])] := by
    simp [ecQuals, splitAnnot, splitList, pyReplace, replaceList, List.lookup]
  have hcds := buildCds_ok_eq "c1" gseq.length hprot hgq
  have hproc := processContig_ok_eq hseq hdesc (by decide) hcds
  have hsort : sortedKeys [("c1", gseq)] = ["c1"] := by
    simp [sortedKeys]
  refine ⟨{ id := "c1", name := "c1", description := d, seq := gseq,
            annots := contigAnnots "c1" [("description", d)],
            features := [srcFeature "c1" gseq.length [("description", d)],
                         geneFeature "c1" gseq.length,
                         { loc := { start := 1, stop := gseq.length, strand := none },
                           type := "CDS",
                           qualifiers := [("translation", QualValue.str pseq),
                                          ("locus_tag", QualValue.str "c1")]
                             ++ [("go_component", QualValue.list ["GO:0005575"]),
                                 ("go_function", QualValue.list ["GO:0003674"]),
                                 ("go_process", QualValue.list [])]
                             ++ ecQuals (List.lookup "c1"
                                  [("c1", { GOs := "GO:0005575;GO:0003674",
                                            EC := "1.1.1.1" })]) }] },
          ?_, ?_, ?_, ?_⟩
  · simp only [faaCore, hsort, mapExcept, hproc, exceptBind_ok]
  · simp [srcFeature, geneFeature]
  · simp [srcFeature, geneFeature]
  · intro ft hft hty
    simp only [List.mem_cons, List.not_mem_nil, or_false] at hft
    rcases hft with rfl | rfl | rfl
    · simp [srcFeature] at hty
    · simp [geneFeature] at hty
    · refine ⟨?_, ?_, ?_, ?_, ?_⟩ <;>
        simp [hecq, List.lookup, splitAnnot, splitList, pyReplace, replaceList]

set_option maxRecDepth 8000 in
/-- Witness for C1 with a concrete 500-base genome sequence and 150-residue
protein sequence. -/
theorem roundtrip_single_contig_witness :
    (String.mk (List.replicate 500 'A')).length = 500 ∧
    (String.mk (List.replicate 150 'M')).length = 150 ∧
    ∃ r : SeqRecord,
      faaCore [("c1", String.mk (List.replicate 500 'A'))]
        [("c1", String.mk (List.replicate 150 'M'))] [("description", "sp")]
        [("c1", { GOs := "GO:0005575;GO:0003674", EC := "1.1.1.1" })]
        [("GO:0005575", "cellular_component"), ("GO:0003674", "molecular_function")] []
        = Except.ok [r] ∧
      (r.features.filter (fun ft => ft.type == "gene")).length = 1 ∧
      (r.features.filter (fun ft => ft.type == "CDS")).length = 1 ∧
      ∀ ft ∈ r.features, ft.type = "CDS" →
        List.lookup "go_component" ft.qualifiers = some (QualValue.list ["GO:0005575"]) ∧
        List.lookup "go_function" ft.qualifiers = some (QualValue.list ["GO:0003674"]) ∧
        List.lookup "go_process" ft.qualifiers = some (QualValue.list []) ∧
        List.lookup "EC_number" ft.qualifiers = some (QualValue.list ["1.1.1.1"]) ∧
        List.lookup "translation" ft.qualifiers
          = some (QualValue.str (String.mk (List.replicate 150 'M'))) :=
  ⟨by decide, by decide,
   roundtrip_single_contig (String.mk (List.replicate 500 'A'))
     (String.mk (List.replicate 150 'M')) "sp" (by decide) (by decide)⟩
